import Mathlib

/-!
Verification of the tilck process-wait and terminal-output subsystem.

This file shallowly embeds, in Lean 4, the C code of:
  * `src/kernel/safe_ringbuf.cpp` — the lock-free single-reader ring buffer;
  * `src/kernel/waitpid.c`        — the `waitpid` child-wait protocol and
                                    its wake-up propagation;
  * `src/kernel/char/term.c`      — the terminal rendering engine and its
                                    action queue;
and proves properties of those embeddings.  Machine integers are modelled
as `Nat`/`Int`; where an overflow is actually reachable the computation is
reduced modulo the machine width explicitly.  The sequential embedding of
the ring buffer corresponds to one uncontended iteration of the source's
compare-and-swap retry loop.
-/

namespace Tilck

/-! ## Safe ring buffer (`src/kernel/safe_ringbuf.cpp`)

The C status word packs `{read_pos, write_pos, full}` into one machine
word.  Positions are always kept below `max_elems` by the modular
arithmetic in the source.  The backing storage (`rb->buf`, an array of
`max_elems` slots of `elem_size` bytes each) is modelled as a total
function from slot index to element. -/

structure generic_safe_ringbuf_stat where
  read_pos : Nat
  write_pos : Nat
  full : Bool
deriving DecidableEq

structure safe_ringbuf (α : Type) where
  max_elems : Nat
  s : generic_safe_ringbuf_stat
  buf : Nat → α

/-- Embeds `rb_stat_is_empty`: empty iff `read_pos == write_pos && !full`. -/
def rb_stat_is_empty (s : generic_safe_ringbuf_stat) : Bool :=
  s.read_pos == s.write_pos && !s.full

/-- Embeds `safe_ringbuf_write_elem`.  Returns the new buffer, the `bool`
result of the C function and the value stored through the `was_empty`
out-parameter.  The CAS retry loop of the source is a single step here:
the loop body recomputes the same pure function of the observed status
word until the CAS succeeds. -/
def safe_ringbuf_write_elem {α : Type} (rb : safe_ringbuf α) (elem : α) :
    safe_ringbuf α × Bool × Bool :=
  if rb.s.full then
    (rb, false, false)
  else
    let ns_write_pos := (rb.s.write_pos + 1) % rb.max_elems
    let ns_full := ns_write_pos == rb.s.read_pos
    let rb' : safe_ringbuf α :=
      { rb with
          s := { read_pos := rb.s.read_pos,
                 write_pos := ns_write_pos,
                 full := ns_full },
          buf := Function.update rb.buf rb.s.write_pos elem }
    (rb', true, rb_stat_is_empty rb.s)

/-- Embeds `safe_ringbuf_read_elem`.  The C function returns a `bool` and
copies the element through an out-pointer; the fallible read is an
`Option` here. -/
def safe_ringbuf_read_elem {α : Type} (rb : safe_ringbuf α) :
    safe_ringbuf α × Option α :=
  if rb_stat_is_empty rb.s then
    (rb, none)
  else
    let e := rb.buf rb.s.read_pos
    let rb' : safe_ringbuf α :=
      { rb with
          s := { read_pos := (rb.s.read_pos + 1) % rb.max_elems,
                 write_pos := rb.s.write_pos,
                 full := false } }
    (rb', some e)

/-- Writes a whole list, element by element; the boolean is true iff every
single write was accepted. -/
def safe_ringbuf_write_list {α : Type} (rb : safe_ringbuf α) :
    List α → safe_ringbuf α × Bool
  | [] => (rb, true)
  | x :: xs =>
    let r1 := safe_ringbuf_write_elem rb x
    let r2 := safe_ringbuf_write_list r1.1 xs
    (r2.1, r1.2.1 && r2.2)

/-- Reads up to `n` elements, stopping early if the buffer empties. -/
def safe_ringbuf_read_list {α : Type} (rb : safe_ringbuf α) :
    Nat → safe_ringbuf α × List α
  | 0 => (rb, [])
  | n + 1 =>
    match safe_ringbuf_read_elem rb with
    | (rb1, some x) =>
      let r := safe_ringbuf_read_list rb1 n
      (r.1, x :: r.2)
    | (rb1, none) => (rb1, [])

/-- Intermediate buffer state reached from the all-zero initial status by
writing the elements of `xs` (at most `max_elems` of them) and then
reading `j` of them back. -/
def rbMid {α : Type} (m : Nat) (buf0 : Nat → α) (xs : List α) (j : Nat) :
    safe_ringbuf α :=
  { max_elems := m,
    s := { read_pos := j % m,
           write_pos := xs.length % m,
           full := decide (xs.length = m ∧ j = 0) },
    buf := fun i => xs.getD i (buf0 i) }

theorem safe_ringbuf_ext {α : Type} {a b : safe_ringbuf α}
    (h1 : a.max_elems = b.max_elems) (h2 : a.s = b.s) (h3 : a.buf = b.buf) :
    a = b := by
  cases a
  cases b
  simp_all

theorem rb_stat_ext {a b : generic_safe_ringbuf_stat}
    (h1 : a.read_pos = b.read_pos) (h2 : a.write_pos = b.write_pos)
    (h3 : a.full = b.full) : a = b := by
  cases a
  cases b
  simp_all

theorem rbMid_zero_eq {α : Type} (m : Nat) (buf0 : Nat → α) (hm : 1 ≤ m) :
    rbMid m buf0 ([] : List α) 0 =
      { max_elems := m, s := { read_pos := 0, write_pos := 0, full := false },
        buf := buf0 } := by
  refine safe_ringbuf_ext rfl (rb_stat_ext ?_ ?_ ?_) ?_
  · simp [rbMid]
  · simp [rbMid]
  · show decide (([] : List α).length = m ∧ 0 = 0) = false
    simp only [List.length_nil, and_true, decide_eq_false_iff_not]
    omega
  · funext i
    show ([] : List α).getD i (buf0 i) = buf0 i
    simp [List.getD]

theorem safe_ringbuf_write_elem_rbMid {α : Type} (m : Nat) (buf0 : Nat → α)
    (ys : List α) (x : α) (hlt : ys.length < m) :
    safe_ringbuf_write_elem (rbMid m buf0 ys 0) x =
      (rbMid m buf0 (ys ++ [x]) 0, true, (ys.length == 0)) := by
  have hm : 0 < m := Nat.lt_of_le_of_lt (Nat.zero_le _) hlt
  have hne : ys.length ≠ m := Nat.ne_of_lt hlt
  have hmodL : ys.length % m = ys.length := Nat.mod_eq_of_lt hlt
  have hfull : (rbMid m buf0 ys 0).s.full = false := by
    show decide (ys.length = m ∧ 0 = 0) = false
    simp [hne]
  unfold safe_ringbuf_write_elem
  rw [hfull]
  simp only [Bool.false_eq_true, if_false, Prod.mk.injEq]
  refine ⟨safe_ringbuf_ext rfl (rb_stat_ext ?_ ?_ ?_) ?_, trivial, ?_⟩
  · rfl
  · show ((rbMid m buf0 ys 0).s.write_pos + 1) % m = (ys ++ [x]).length % m
    show (ys.length % m + 1) % m = (ys ++ [x]).length % m
    rw [hmodL]
    simp
  · show (((rbMid m buf0 ys 0).s.write_pos + 1) % m
        == (rbMid m buf0 ys 0).s.read_pos) =
      decide ((ys ++ [x]).length = m ∧ 0 = 0)
    show ((ys.length % m + 1) % m == 0 % m) =
      decide ((ys ++ [x]).length = m ∧ 0 = 0)
    rw [hmodL]
    simp only [Nat.zero_mod, List.length_append, List.length_singleton, and_true]
    rcases Nat.lt_or_ge (ys.length + 1) m with h1 | h1
    · rw [Nat.mod_eq_of_lt h1]
      have hne1 : ¬ ys.length + 1 = m := by omega
      simp [hne1]
    · have h2 : ys.length + 1 = m := by omega
      rw [h2, Nat.mod_self]
      simp [h2]
  · show Function.update (rbMid m buf0 ys 0).buf
        ((rbMid m buf0 ys 0).s.write_pos) x = (rbMid m buf0 (ys ++ [x]) 0).buf
    show Function.update (fun i => ys.getD i (buf0 i)) (ys.length % m) x =
      fun i => (ys ++ [x]).getD i (buf0 i)
    rw [hmodL]
    funext i
    rcases Nat.lt_trichotomy i ys.length with h | h | h
    · rw [Function.update_noteq (by omega)]
      show ys.getD i (buf0 i) = (ys ++ [x]).getD i (buf0 i)
      rw [List.getD_eq_getElem?_getD, List.getD_eq_getElem?_getD,
        List.getElem?_append_left h]
    · subst h
      rw [Function.update_same]
      show x = (ys ++ [x]).getD ys.length (buf0 ys.length)
      rw [List.getD_eq_getElem?_getD, List.getElem?_concat_length]
      rfl
    · rw [Function.update_noteq (by omega)]
      show ys.getD i (buf0 i) = (ys ++ [x]).getD i (buf0 i)
      rw [List.getD_eq_getElem?_getD, List.getD_eq_getElem?_getD,
        List.getElem?_eq_none (l := ys) (by omega),
        List.getElem?_eq_none (l := ys ++ [x])
          (by simp only [List.length_append, List.length_singleton]; omega)]
  · show rb_stat_is_empty (rbMid m buf0 ys 0).s = (ys.length == 0)
    unfold rb_stat_is_empty
    have hr : (rbMid m buf0 ys 0).s.read_pos = 0 := by simp [rbMid]
    have hw : (rbMid m buf0 ys 0).s.write_pos = ys.length := by
      show ys.length % m = ys.length
      exact hmodL
    rw [hr, hw, hfull]
    cases ys with
    | nil => simp
    | cons y ys => simp

theorem safe_ringbuf_write_list_rbMid {α : Type} (m : Nat) (buf0 : Nat → α) :
    ∀ (xs ys : List α), ys.length + xs.length ≤ m →
      safe_ringbuf_write_list (rbMid m buf0 ys 0) xs =
        (rbMid m buf0 (ys ++ xs) 0, true) := by
  intro xs
  induction xs with
  | nil =>
    intro ys _
    simp [safe_ringbuf_write_list]
  | cons x xs ih =>
    intro ys h
    have hlt : ys.length < m := by
      simp only [List.length_cons] at h
      omega
    unfold safe_ringbuf_write_list
    rw [safe_ringbuf_write_elem_rbMid m buf0 ys x hlt]
    have hlen : (ys ++ [x]).length + xs.length ≤ m := by
      simp at h ⊢
      omega
    simp only [ih (ys ++ [x]) hlen, List.append_assoc, List.singleton_append,
      Bool.and_true]

theorem safe_ringbuf_read_elem_rbMid {α : Type} (m : Nat) (buf0 : Nat → α)
    (xs : List α) (j : Nat) (hj : j < xs.length) (hlen : xs.length ≤ m) :
    safe_ringbuf_read_elem (rbMid m buf0 xs j) =
      (rbMid m buf0 xs (j + 1), some (xs.getD j (buf0 j))) := by
  have hjm : j < m := by omega
  have hjmod : j % m = j := Nat.mod_eq_of_lt hjm
  have hnonempty : rb_stat_is_empty (rbMid m buf0 xs j).s = false := by
    unfold rb_stat_is_empty rbMid
    simp only [Bool.and_eq_false_imp, beq_iff_eq, Bool.not_eq_false]
    intro heq
    rcases Nat.lt_or_ge xs.length m with h1 | h1
    · exfalso
      rw [hjmod, Nat.mod_eq_of_lt h1] at heq
      omega
    · have h2 : xs.length = m := by omega
      rw [h2, Nat.mod_self, hjmod] at heq
      simp [h2, heq]
  unfold safe_ringbuf_read_elem
  rw [hnonempty]
  simp only [Bool.false_eq_true, if_false, Prod.mk.injEq]
  refine ⟨safe_ringbuf_ext rfl (rb_stat_ext ?_ ?_ ?_) rfl, ?_⟩
  · show ((rbMid m buf0 xs j).s.read_pos + 1) % m = (j + 1) % m
    show (j % m + 1) % m = (j + 1) % m
    rw [hjmod]
  · rfl
  · show false = decide (xs.length = m ∧ j + 1 = 0)
    have : ¬ (xs.length = m ∧ j + 1 = 0) := by omega
    simp [this]
  · show some ((rbMid m buf0 xs j).buf (rbMid m buf0 xs j).s.read_pos) =
      some (xs.getD j (buf0 j))
    show some (xs.getD (j % m) (buf0 (j % m))) = some (xs.getD j (buf0 j))
    rw [hjmod]

theorem safe_ringbuf_read_elem_rbMid_end {α : Type} (m : Nat) (buf0 : Nat → α)
    (xs : List α) (hm : 1 ≤ m) (hlen : xs.length ≤ m) :
    safe_ringbuf_read_elem (rbMid m buf0 xs xs.length) =
      (rbMid m buf0 xs xs.length, none) := by
  have hempty : rb_stat_is_empty (rbMid m buf0 xs xs.length).s = true := by
    unfold rb_stat_is_empty
    have hfull : (rbMid m buf0 xs xs.length).s.full = false := by
      show decide (xs.length = m ∧ xs.length = 0) = false
      simp only [decide_eq_false_iff_not]
      omega
    rw [hfull]
    show ((xs.length % m == xs.length % m) && !false) = true
    simp
  unfold safe_ringbuf_read_elem
  rw [hempty]
  simp

theorem safe_ringbuf_read_list_rbMid {α : Type} (m : Nat) (buf0 : Nat → α)
    (xs : List α) (hlen : xs.length ≤ m) :
    ∀ (n j : Nat), j + n ≤ xs.length →
      safe_ringbuf_read_list (rbMid m buf0 xs j) n =
        (rbMid m buf0 xs (j + n), (xs.drop j).take n) := by
  intro n
  induction n with
  | zero =>
    intro j _
    simp [safe_ringbuf_read_list]
  | succ n ih =>
    intro j h
    have hj : j < xs.length := by omega
    unfold safe_ringbuf_read_list
    rw [safe_ringbuf_read_elem_rbMid m buf0 xs j hj hlen]
    simp only [ih (j + 1) (by omega)]
    have hdrop : xs.drop j = xs.getD j (buf0 j) :: xs.drop (j + 1) := by
      rw [List.getD_eq_getElem _ _ hj]
      exact List.drop_eq_getElem_cons hj
    rw [hdrop]
    simp only [List.take_succ_cons]
    congr 2
    omega

/-- C5: starting from an empty ring buffer of capacity `max_elems`, any
sequence of at most `max_elems` writes is fully accepted, the subsequent
reads return exactly the written elements in FIFO order, and the read
following the last element is rejected. -/
theorem safe_ringbuf_fifo {α : Type} (m : Nat) (buf0 : Nat → α)
    (xs : List α) (hm : 1 ≤ m) (hlen : xs.length ≤ m) :
    safe_ringbuf_write_list
        { max_elems := m, s := { read_pos := 0, write_pos := 0, full := false },
          buf := buf0 } xs =
      (rbMid m buf0 xs 0, true) ∧
    safe_ringbuf_read_list (rbMid m buf0 xs 0) xs.length =
      (rbMid m buf0 xs xs.length, xs) ∧
    (safe_ringbuf_read_elem (rbMid m buf0 xs xs.length)).2 = none := by
  refine ⟨?_, ?_, ?_⟩
  · rw [← rbMid_zero_eq m buf0 hm]
    simpa using safe_ringbuf_write_list_rbMid m buf0 xs [] (by simpa using hlen)
  · have := safe_ringbuf_read_list_rbMid m buf0 xs hlen xs.length 0 (by omega)
    simpa using this
  · rw [safe_ringbuf_read_elem_rbMid_end m buf0 xs hm hlen]

/-- Closed witness for `safe_ringbuf_fifo` at capacity 3 with the writes
`[10, 20, 30]`. -/
theorem safe_ringbuf_fifo_witness :
    safe_ringbuf_write_list
        { max_elems := 3, s := { read_pos := 0, write_pos := 0, full := false },
          buf := fun _ => 0 } [10, 20, 30] =
      (rbMid 3 (fun _ => 0) [10, 20, 30] 0, true) ∧
    safe_ringbuf_read_list (rbMid 3 (fun _ => 0) [10, 20, 30] 0) 3 =
      (rbMid 3 (fun _ => 0) [10, 20, 30] 3, [10, 20, 30]) ∧
    (safe_ringbuf_read_elem (rbMid 3 (fun _ => 0) [10, 20, 30] 3)).2 = none :=
  safe_ringbuf_fifo 3 (fun _ => 0) [10, 20, 30] (by decide) (by decide)

/-- C4: a write against a full ring buffer is rejected and leaves the
whole buffer — backing storage and `{read_pos, write_pos, full}` status
word alike — unchanged. -/
theorem safe_ringbuf_write_elem_full_rejects {α : Type} (rb : safe_ringbuf α)
    (e : α) (h : rb.s.full = true) :
    safe_ringbuf_write_elem rb e = (rb, false, false) := by
  unfold safe_ringbuf_write_elem
  rw [h]
  simp

def rbFullExample : safe_ringbuf Nat :=
  { max_elems := 4, s := { read_pos := 2, write_pos := 2, full := true },
    buf := fun _ => 7 }

/-- Closed witness for `safe_ringbuf_write_elem_full_rejects`. -/
theorem safe_ringbuf_write_elem_full_rejects_witness :
    rbFullExample.s.full = true ∧
    safe_ringbuf_write_elem rbFullExample 99 = (rbFullExample, false, false) :=
  ⟨rfl, safe_ringbuf_write_elem_full_rejects rbFullExample 99 rfl⟩

/-- C6: whenever a write is accepted, the value it stores through the
`was_empty` out-parameter is true iff the buffer held no unread element
immediately before the write, i.e. iff `read_pos == write_pos` and the
`full` flag was clear. -/
theorem safe_ringbuf_write_elem_was_empty_iff {α : Type} (rb : safe_ringbuf α)
    (e : α) (hacc : (safe_ringbuf_write_elem rb e).2.1 = true) :
    ((safe_ringbuf_write_elem rb e).2.2 = true ↔
      (rb.s.read_pos = rb.s.write_pos ∧ rb.s.full = false)) := by
  by_cases hful : rb.s.full = true
  · exfalso
    rw [safe_ringbuf_write_elem_full_rejects rb e hful] at hacc
    simp at hacc
  · unfold safe_ringbuf_write_elem
    rw [Bool.not_eq_true] at hful
    rw [hful]
    unfold rb_stat_is_empty
    rw [hful]
    simp

def rbEmptyExample : safe_ringbuf Nat :=
  { max_elems := 4, s := { read_pos := 1, write_pos := 1, full := false },
    buf := fun _ => 0 }

/-- Closed witness for `safe_ringbuf_write_elem_was_empty_iff`: writing to
an empty buffer reports `was_empty = true`. -/
theorem safe_ringbuf_write_elem_was_empty_iff_witness :
    (safe_ringbuf_write_elem rbEmptyExample 5).2.1 = true ∧
    ((safe_ringbuf_write_elem rbEmptyExample 5).2.2 = true ↔
      (rbEmptyExample.s.read_pos = rbEmptyExample.s.write_pos ∧
        rbEmptyExample.s.full = false)) :=
  ⟨rfl, safe_ringbuf_write_elem_was_empty_iff rbEmptyExample 5 rfl⟩

/-! ## Child-wait protocol (`src/kernel/waitpid.c`)

A process and its main task are modelled as one record: in tilck the main
task of a process has `tid == pid`, and `sys_waitpid` scans the caller's
children (processes) and inspects their main tasks.  The task state is
reduced to the zombie bit, the only state `waitpid_get_changed_task`
inspects.  `copy_to_user` is an external fallible primitive, modelled by
the boolean `copy_ok`; a NULL `user_wstatus` pointer is the boolean
`wstatus_null`.  One iteration of the `while (true)` loop is embedded;
the path that registers a wait object and yields is the `block` result. -/

def ECHILD : Int := 10

def EFAULT : Int := 14

structure Proc where
  pid : Int
  parent_pid : Int
  pgid : Int
  zombie : Bool
  exit_wstatus : Int
deriving DecidableEq

/-- Embeds `waitpid_should_skip_child`: the pid-selector predicate over a
child process `pos` of the caller (whose process group is `curr_pgid`). -/
def waitpid_should_skip_child (curr_pgid : Int) (pos : Proc) (pid : Int) :
    Bool :=
  if pid > 0 then pos.pid != pid
  else if pid < -1 then pos.pgid != -pid
  else if pid == 0 then pos.pgid != curr_pgid
  else false

/-- Embeds the `list_for_each_ro` scan inside `sys_waitpid`: walks the
children, skipping non-matching ones, counting matched children and
breaking at the first matched child whose main task is a zombie
(`waitpid_get_changed_task` returns the task iff its state is
`TASK_STATE_ZOMBIE`).  As in the C loop, the count stops at the break. -/
def waitpid_scan (curr_pgid : Int) (pid : Int) :
    List Proc → Nat × Option Proc
  | [] => (0, none)
  | pos :: rest =>
    if waitpid_should_skip_child curr_pgid pos pid then
      waitpid_scan curr_pgid pid rest
    else if pos.zombie then (1, some pos)
    else
      let r := waitpid_scan curr_pgid pid rest
      (r.1 + 1, r.2)

inductive WaitpidResult where
  | ret (code : Int) (procs : List Proc)
  | block (procs : List Proc)
deriving DecidableEq

/-- Embeds the external `get_task` directory lookup over the process
table. -/
def get_task (procs : List Proc) (pid : Int) : Option Proc :=
  procs.find? (fun t => t.pid == pid)

/-- Embeds the external `remove_task`: the reaped zombie is removed from
the process tree. -/
def remove_task (procs : List Proc) (t : Proc) : List Proc :=
  procs.eraseP (fun q => q.pid == t.pid)

/-- Embeds the `pid > 0` early check of `sys_waitpid`: true iff the call
must fail with `-ECHILD` because the waited task does not exist or is not
a child of the caller. -/
def waitpid_early_echild (procs : List Proc) (curr_pid pid : Int) : Bool :=
  if pid > 0 then
    match get_task procs pid with
    | none => true
    | some t => t.parent_pid != curr_pid
  else false

/-- Embeds one iteration of `sys_waitpid`'s `while (true)` loop: the
caller is the process `curr_pid` (group `curr_pgid`), `procs` is the
process table.  `wnohang` is `options & WNOHANG`, `wstatus_null` is
`user_wstatus == NULL`, and `copy_ok` models the outcome of
`copy_to_user`.  A blocking iteration (wait-object registration followed
by `kernel_yield`) is the `block` result. -/
def sys_waitpid (procs : List Proc) (curr_pid curr_pgid : Int) (pid : Int)
    (wnohang : Bool) (wstatus_null : Bool) (copy_ok : Bool) :
    WaitpidResult :=
  if waitpid_early_echild procs curr_pid pid then .ret (-ECHILD) procs
  else
    let children := procs.filter (fun p => p.parent_pid == curr_pid)
    let r := waitpid_scan curr_pgid pid children
    match r.2 with
    | some chtask =>
      let chtask_tid : Int :=
        if !wstatus_null && !copy_ok then -EFAULT else chtask.pid
      let procs' := if chtask.zombie then remove_task procs chtask else procs
      .ret chtask_tid procs'
    | none =>
      if wnohang then .ret 0 procs
      else if r.1 == 0 then .ret (-ECHILD) procs
      else .block procs

theorem waitpid_scan_count_zero_none (curr_pgid pid : Int) :
    ∀ l : List Proc, (waitpid_scan curr_pgid pid l).1 = 0 →
      (waitpid_scan curr_pgid pid l).2 = none := by
  intro l
  induction l with
  | nil => intro _; rfl
  | cons pos rest ih =>
    intro h
    unfold waitpid_scan at h ⊢
    by_cases hs : waitpid_should_skip_child curr_pgid pos pid
    · simp only [hs, if_true] at h ⊢
      exact ih h
    · simp only [hs, Bool.false_eq_true, if_false] at h ⊢
      by_cases hz : pos.zombie
      · simp [hz] at h
      · simp only [hz, Bool.false_eq_true, if_false] at h ⊢
        omega

theorem waitpid_scan_found_zombie (curr_pgid pid : Int) :
    ∀ (l : List Proc) (ch : Proc),
      (waitpid_scan curr_pgid pid l).2 = some ch → ch.zombie = true := by
  intro l
  induction l with
  | nil => intro ch h; cases h
  | cons pos rest ih =>
    intro ch h
    unfold waitpid_scan at h
    by_cases hs : waitpid_should_skip_child curr_pgid pos pid
    · simp only [hs, if_true] at h
      exact ih ch h
    · simp only [hs, Bool.false_eq_true, if_false] at h
      by_cases hz : pos.zombie
      · simp only [hz, if_true, Option.some.injEq] at h
        rw [← h]
        exact hz
      · simp only [hz, Bool.false_eq_true, if_false] at h
        exact ih ch h

/-- C1 counterexample: a caller with no children at all, selector `-1`
and `WNOHANG` set gets the "no change" result 0, not `-ECHILD`: the code
tests `options & WNOHANG` before testing `child_count == 0`. -/
theorem sys_waitpid_wnohang_no_children_returns_zero :
    sys_waitpid [] 1 1 (-1) true true true = .ret 0 [] ∧
      (0 : Int) ≠ -ECHILD := by
  constructor
  · rfl
  · decide

/-- C1 (amended): when no child of the caller matches the pid selector,
the call fails with `-ECHILD` provided `WNOHANG` is clear; when `WNOHANG`
is set (and, for `pid > 0`, the early existence check passes), the call
returns the "no change" result 0 whenever no matching child is a zombie —
even when no child matches the selector at all. -/
theorem sys_waitpid_no_matching_child (procs : List Proc)
    (curr_pid curr_pgid pid : Int) (wstatus_null copy_ok : Bool) :
    ((waitpid_scan curr_pgid pid
        (procs.filter (fun p => p.parent_pid == curr_pid))).1 = 0 →
      sys_waitpid procs curr_pid curr_pgid pid false wstatus_null copy_ok =
        .ret (-ECHILD) procs) ∧
    ((waitpid_scan curr_pgid pid
        (procs.filter (fun p => p.parent_pid == curr_pid))).2 = none →
      waitpid_early_echild procs curr_pid pid = false →
      sys_waitpid procs curr_pid curr_pgid pid true wstatus_null copy_ok =
        .ret 0 procs) := by
  constructor
  · intro hcnt
    unfold sys_waitpid
    by_cases he : waitpid_early_echild procs curr_pid pid
    · simp [he]
    · simp only [he, Bool.false_eq_true, if_false]
      rw [waitpid_scan_count_zero_none curr_pgid pid _ hcnt]
      simp [hcnt]
  · intro hnone he
    unfold sys_waitpid
    simp only [he, Bool.false_eq_true, if_false]
    rw [hnone]
    simp

def waitpidProcsA : List Proc :=
  [{ pid := 5, parent_pid := 1, pgid := 2, zombie := false,
     exit_wstatus := 0 }]

/-- Closed witness for `sys_waitpid_no_matching_child`: caller 1 has one
child in group 2; selector `-3` (group 3) matches nothing, so a blocking
call returns `-ECHILD` while a `WNOHANG` call returns 0. -/
theorem sys_waitpid_no_matching_child_witness :
    sys_waitpid waitpidProcsA 1 1 (-3) false true true =
      .ret (-ECHILD) waitpidProcsA ∧
    sys_waitpid waitpidProcsA 1 1 (-3) true true true =
      .ret 0 waitpidProcsA := by
  constructor
  · exact (sys_waitpid_no_matching_child waitpidProcsA 1 1 (-3) true true).1
      (by decide)
  · exact (sys_waitpid_no_matching_child waitpidProcsA 1 1 (-3) true true).2
      (by decide) (by decide)

/-- C9: when the scan finds a zombie child but the copy of the exit
status to user space fails, the call returns `-EFAULT` and the zombie is
nonetheless removed from the process tree — the reap is not rolled back
on the fault. -/
theorem sys_waitpid_efault_still_reaps (procs : List Proc)
    (curr_pid curr_pgid pid : Int) (ch : Proc)
    (he : waitpid_early_echild procs curr_pid pid = false)
    (hscan : (waitpid_scan curr_pgid pid
        (procs.filter (fun p => p.parent_pid == curr_pid))).2 = some ch) :
    sys_waitpid procs curr_pid curr_pgid pid false false false =
      .ret (-EFAULT) (remove_task procs ch) := by
  have hz : ch.zombie = true :=
    waitpid_scan_found_zombie curr_pgid pid _ ch hscan
  unfold sys_waitpid
  simp only [he, Bool.false_eq_true, if_false]
  rw [hscan]
  simp [hz]

def waitpidProcsB : List Proc :=
  [{ pid := 7, parent_pid := 1, pgid := 1, zombie := true,
     exit_wstatus := 9 }]

/-- Closed witness for `sys_waitpid_efault_still_reaps`: the zombie child
7 is reaped even though the status copy faults. -/
theorem sys_waitpid_efault_still_reaps_witness :
    sys_waitpid waitpidProcsB 1 1 (-1) false false false =
      .ret (-EFAULT) (remove_task waitpidProcsB
        { pid := 7, parent_pid := 1, pgid := 1, zombie := true,
          exit_wstatus := 9 }) :=
  sys_waitpid_efault_still_reaps waitpidProcsB 1 1 (-1)
    { pid := 7, parent_pid := 1, pgid := 1, zombie := true,
      exit_wstatus := 9 }
    (by decide) (by decide)

/-! ## Wake-up propagation (`wake_up_tasks_waiting_on` in waitpid.c)

Tasks carry the fields the wake-up path reads: state, wait-object type
and the encoded pid selector stored through `TO_PTR(pid)` in the wait
object (read back signed via `(sptr)wait_obj_get_ptr`).  The zombified
task `ti` is given by the tids registered in its `tasks_waiting_list` and
by its parent pid. -/

inductive task_state where
  | runnable
  | sleeping
  | zombie
deriving DecidableEq

def WOBJ_NONE : Nat := 0

def WOBJ_TASK : Nat := 1

structure WTask where
  tid : Int
  state : task_state
  wobj_type : Nat
  wobj_ptr : Int
deriving DecidableEq

/-- Embeds `task_reset_wait_obj`: the task leaves the wait relation and
becomes runnable. -/
def task_reset_wait_obj (t : WTask) : WTask :=
  { t with state := .runnable, wobj_type := WOBJ_NONE, wobj_ptr := 0 }

/-- Embeds `task_is_waiting_on_multiple_children`: sleeping, on a
`WOBJ_TASK` wait object, with a negative encoded pid selector. -/
def task_is_waiting_on_multiple_children (t : WTask) : Bool :=
  if t.state != .sleeping then false
  else if t.wobj_type != WOBJ_TASK then false
  else decide (t.wobj_ptr < 0)

/-- Embeds `wake_up_tasks_waiting_on` for a zombified task whose wait
list holds the tasks with tids in `waiting_tids` and whose parent pid is
`parent_pid`: every registered waiter is reset, then the parent is reset
if `task_is_waiting_on_multiple_children` holds for it. -/
def wake_up_tasks_waiting_on (tasks : List WTask) (waiting_tids : List Int)
    (parent_pid : Int) : List WTask :=
  let tasks1 := tasks.map (fun t =>
    if waiting_tids.contains t.tid then task_reset_wait_obj t else t)
  if parent_pid > 0 then
    tasks1.map (fun t =>
      if t.tid == parent_pid && task_is_waiting_on_multiple_children t then
        task_reset_wait_obj t
      else t)
  else tasks1

def sleepingParentSel0 : WTask :=
  { tid := 5, state := .sleeping, wobj_type := WOBJ_TASK, wobj_ptr := 0 }

/-- C2 counterexample: the parent of the zombified task is sleeping on a
`WOBJ_TASK` wait object with encoded selector 0 — the "wait for any
child of my process group" mode — yet `wake_up_tasks_waiting_on` leaves
it asleep, because the code only wakes the parent when the encoded
selector is negative. -/
theorem wake_up_parent_selector_zero_not_woken :
    wake_up_tasks_waiting_on [sleepingParentSel0] [] 5 =
      [sleepingParentSel0] ∧
    sleepingParentSel0.state = .sleeping ∧
    sleepingParentSel0.wobj_type = WOBJ_TASK ∧
    sleepingParentSel0.wobj_ptr = 0 := by
  refine ⟨?_, rfl, rfl, rfl⟩
  decide

/-- C2 (amended): `wake_up_tasks_waiting_on` resets every task whose tid
is registered in the zombified task's wait list and, in addition, resets
the parent exactly when the parent is sleeping on a `WOBJ_TASK` wait
object whose encoded pid selector is negative (selector `-1` or
`< -1`); a parent waiting with selector 0 is not woken. -/
theorem wake_up_tasks_waiting_on_spec (tasks : List WTask)
    (waiting_tids : List Int) (parent_pid : Int) :
    wake_up_tasks_waiting_on tasks waiting_tids parent_pid =
      tasks.map (fun t =>
        if waiting_tids.contains t.tid then task_reset_wait_obj t
        else if parent_pid > 0 ∧ t.tid = parent_pid ∧
            task_is_waiting_on_multiple_children t = true then
          task_reset_wait_obj t
        else t) := by
  unfold wake_up_tasks_waiting_on
  by_cases hp : parent_pid > 0
  · simp only [hp, if_true, List.map_map]
    apply List.map_congr_left
    intro t _
    by_cases hw : waiting_tids.contains t.tid
    · simp only [Function.comp_apply, hw, if_true]
      have hnot : task_is_waiting_on_multiple_children
          (task_reset_wait_obj t) = false := by
        unfold task_is_waiting_on_multiple_children task_reset_wait_obj
        simp
      simp [hnot]
    · simp only [Function.comp_apply, hw, Bool.false_eq_true, if_false]
      by_cases ht : t.tid = parent_pid ∧
          task_is_waiting_on_multiple_children t = true
      · simp [ht.1, ht.2, hp]
      · have hb : ¬ ((t.tid == parent_pid &&
            task_is_waiting_on_multiple_children t) = true) := by
          rw [Bool.and_eq_true, beq_iff_eq]
          exact ht
        rw [if_neg hb, if_neg (by simpa [hp] using ht)]
  · simp only [hp, if_false]
    apply List.map_congr_left
    intro t _
    by_cases hw : waiting_tids.contains t.tid
    · simp [hw]
    · simp only [hw, Bool.false_eq_true, if_false]
      rw [if_neg]
      intro hcontra
      exact hcontra.1

/-! ## Terminal action queue (`term_execute_or_enqueue_action` in term.c)

The queue `term_ringbuf` is a tilck `ringbuf` of 32 `term_action` slots
(`term_actions_buf`).  The `ringbuf` implementation itself is not part of
the sources in scope (only `safe_ringbuf.cpp` is); per the spec it is the
same fixed-capacity FIFO contract, so the queue is modelled as a list of
at most 32 pending actions: a failing push is the fatal `VERIFY(written)`
case, modelled as `none`.  Reentrant enqueues performed by nested
interrupt contexts while the drain loop dispatches an action are given by
an oracle `injs`: `injs.head` is the list of actions pushed during the
dispatch of the first popped action, and so on.  Once the oracle is
exhausted the remaining queue drains with no further interference. -/

/-- Modelled from the spec: `ringbuf_write_elem_ex` of the tilck
`ringbuf` (not under the sources in scope) — pushes onto the FIFO unless
full (capacity 32 for the term action queue) and reports through
`was_empty` whether the queue was empty before the push. -/
def ringbuf_write_elem_ex {α : Type} (q : List α) (a : α) :
    Option (List α × Bool) :=
  if q.length = 32 then none else some (q ++ [a], q.isEmpty)

/-- Pushes a whole list of reentrantly-enqueued actions; `none` if any
push hits a full queue (the fatal `VERIFY` case in the caller). -/
def term_push_all {α : Type} (q : List α) : List α → Option (List α)
  | [] => some q
  | x :: xs =>
    match ringbuf_write_elem_ex q x with
    | some r => term_push_all r.1 xs
    | none => none

/-- The drain loop once the injection oracle is exhausted: pops and
dispatches until `ringbuf_read_elem` fails; returns the dispatch order. -/
def term_drain_nil {α : Type} : List α → List α
  | [] => []
  | a :: rest => a :: term_drain_nil rest

/-- The drain loop of `term_execute_or_enqueue_action`: pops one action
(`ringbuf_read_elem` on the FIFO), dispatches it — during which the next
oracle entry is pushed by nested contexts — and repeats until the pop
fails.  Returns the final queue, the unused oracle suffix and the
dispatch order. -/
def term_drain {α : Type} :
    List (List α) → List α → Option (List α × List (List α) × List α)
  | injs, [] => some ([], injs, [])
  | [], a :: rest => some ([], [], a :: term_drain_nil rest)
  | inj :: injs, a :: rest =>
    match term_push_all rest inj with
    | some q2 => (term_drain injs q2).map (fun r => (r.1, r.2.1, a :: r.2.2))
    | none => none

/-- Embeds `term_execute_or_enqueue_action`: push the action (a failed
push is the fatal `VERIFY(written)`), then drain the whole queue iff it
was empty before the push. -/
def term_execute_or_enqueue_action {α : Type} (q : List α) (a : α)
    (injs : List (List α)) :
    Option (List α × List (List α) × List α) :=
  match ringbuf_write_elem_ex q a with
  | none => none
  | some qr =>
    if qr.2 then term_drain injs qr.1
    else some (qr.1, injs, [])

theorem term_drain_nil_eq {α : Type} :
    ∀ xs : List α, term_drain_nil xs = xs := by
  intro xs
  induction xs with
  | nil => rfl
  | cons a rest ih => simp [term_drain_nil, ih]

theorem term_push_all_eq {α : Type} :
    ∀ (xs q q' : List α), term_push_all q xs = some q' → q' = q ++ xs := by
  intro xs
  induction xs with
  | nil =>
    intro q q' h
    simp [term_push_all] at h
    simp [h.symm]
  | cons x xs ih =>
    intro q q' h
    unfold term_push_all ringbuf_write_elem_ex at h
    by_cases hf : q.length = 32
    · simp [hf] at h
    · simp only [hf, if_false] at h
      have := ih (q ++ [x]) q' h
      simp [this]

theorem term_drain_cons_cons {α : Type} (inj : List α) (injs : List (List α))
    (a : α) (rest q2 : List α) (hp : term_push_all rest inj = some q2) :
    term_drain (inj :: injs) (a :: rest) =
      (term_drain injs q2).map (fun r => (r.1, r.2.1, a :: r.2.2)) := by
  have hstep : term_drain (inj :: injs) (a :: rest) =
      match term_push_all rest inj with
      | some q2 => (term_drain injs q2).map (fun r => (r.1, r.2.1, a :: r.2.2))
      | none => none := rfl
  rw [hstep, hp]

theorem term_drain_spec {α : Type} :
    ∀ (injs : List (List α)) (q : List α)
      (r : List α × List (List α) × List α),
      term_drain injs q = some r →
      r.1 = [] ∧ (r.2.2 ++ r.2.1.flatten).Perm (q ++ injs.flatten) := by
  intro injs
  induction injs with
  | nil =>
    intro q r h
    cases q with
    | nil =>
      simp only [term_drain, Option.some.injEq] at h
      subst h
      simp
    | cons a rest =>
      simp only [term_drain, Option.some.injEq] at h
      subst h
      simp [term_drain_nil_eq]
  | cons inj injs ih =>
    intro q r h
    cases q with
    | nil =>
      simp only [term_drain, Option.some.injEq] at h
      subst h
      simp
    | cons a rest =>
      cases hp : term_push_all rest inj with
      | none =>
        unfold term_drain at h
        rw [hp] at h
        cases h
      | some q2 =>
        rw [term_drain_cons_cons inj injs a rest q2 hp] at h
        cases hd : term_drain injs q2 with
        | none => rw [hd] at h; cases h
        | some r' =>
          rw [hd, Option.map_some'] at h
          simp only [Option.some.injEq] at h
          subst h
          have hq2 : q2 = rest ++ inj := term_push_all_eq inj rest q2 hp
          have hih := ih q2 r' hd
          refine ⟨hih.1, ?_⟩
          simp only [List.cons_append]
          refine List.Perm.cons a ?_
          have hperm := hih.2
          rw [hq2] at hperm
          simpa [List.append_assoc] using hperm

theorem term_drain_head {α : Type} (injs : List (List α)) (a : α)
    (rest : List α) (r : List α × List (List α) × List α)
    (h : term_drain injs (a :: rest) = some r) :
    r.2.2.head? = some a := by
  cases injs with
  | nil =>
    simp only [term_drain, Option.some.injEq] at h
    subst h
    rfl
  | cons inj injs =>
    cases hp : term_push_all rest inj with
    | none =>
      unfold term_drain at h
      rw [hp] at h
      cases h
    | some q2 =>
      rw [term_drain_cons_cons inj injs a rest q2 hp] at h
      cases hd : term_drain injs q2 with
      | none => rw [hd] at h; cases h
      | some r' =>
        rw [hd, Option.map_some'] at h
        simp only [Option.some.injEq] at h
        subst h
        rfl

/-- C7: if the queue was empty before the push, the caller drains it:
on return the queue is empty, the pushed action is dispatched first, and
the dispatched actions are exactly the pushed action plus every
reentrantly enqueued action of the consumed oracle prefix (the unused
suffix accounts for the rest) — each exactly once.  If the queue was
non-empty, the caller returns at once: nothing is dispatched, the queue
only gains the pushed action, and the oracle is untouched. -/
theorem term_execute_or_enqueue_action_spec {α : Type} (q : List α) (a : α)
    (injs : List (List α)) (r : List α × List (List α) × List α)
    (h : term_execute_or_enqueue_action q a injs = some r) :
    (q = [] → r.1 = [] ∧ r.2.2.head? = some a ∧
      (r.2.2 ++ r.2.1.flatten).Perm (a :: injs.flatten)) ∧
    (q ≠ [] → r.1 = q ++ [a] ∧ r.2.2 = [] ∧ r.2.1 = injs) := by
  unfold term_execute_or_enqueue_action ringbuf_write_elem_ex at h
  by_cases hf : q.length = 32
  · simp [hf] at h
  · simp only [hf, if_false] at h
    constructor
    · intro hq
      subst hq
      simp only [List.isEmpty_nil, List.nil_append, if_true] at h
      have hs := term_drain_spec injs [a] r h
      have hh := term_drain_head injs a [] r h
      exact ⟨hs.1, hh, by simpa using hs.2⟩
    · intro hq
      have hne : q.isEmpty = false := by
        cases q with
        | nil => exact absurd rfl hq
        | cons x xs => rfl
      rw [hne] at h
      simp only [Bool.false_eq_true, if_false, Option.some.injEq] at h
      subst h
      exact ⟨rfl, rfl, rfl⟩

/-- Closed witness for `term_execute_or_enqueue_action_spec`: an empty
queue is drained through two rounds of reentrant enqueues, and a
non-empty queue returns immediately. -/
theorem term_execute_or_enqueue_action_spec_witness :
    (term_execute_or_enqueue_action ([] : List Nat) 1 [[2, 3], [4]] =
      some ([], [], [1, 2, 3, 4]) ∧
     ([1, 2, 3, 4] ++ ([] : List (List Nat)).flatten).Perm
       (1 :: ([[2, 3], [4]] : List (List Nat)).flatten)) ∧
    term_execute_or_enqueue_action ([5] : List Nat) 6 [] =
      some ([5, 6], [], []) := by
  refine ⟨⟨by decide, ?_⟩, by decide⟩
  have h :=
    (term_execute_or_enqueue_action_spec ([] : List Nat) 1 [[2, 3], [4]]
      ([], [], [1, 2, 3, 4]) (by decide)).1 rfl
  simpa using h.2.2

/-! ## Terminal rendering engine (`src/kernel/char/term.c`)

The mutable globals of term.c are gathered into one state record.  The
video interface `vi` is an external backend: its calls do not touch the
modelled state, except that `term_internal_incr_row` branches on whether
the backend provides `scroll_one_line_up`, kept as a boolean.  `u16`
fields never wrap below because every operation keeps them within the
grid (proved below); `u32` scroll arithmetic that can genuinely wrap is
taken modulo `2^32`.  `buffer` maps a flat index
`(row + scroll) % total_buffer_rows * term_cols + col` to a packed
character/color entry; `term_tabs` is the optional tab bitmap indexed by
`row * term_cols + col`. -/

def pow2_32 : Nat := 4294967296

/-- Modelled from the spec: `make_color(DEFAULT_FG_COLOR,
DEFAULT_BG_COLOR)` from the color definitions header (not under the
sources in scope); the concrete value is immaterial. -/
def DEFAULT_COLOR : Nat := 7

/-- Embeds `make_vgaentry`: packs a character byte and a color byte into
one 16-bit cell entry. -/
def make_vgaentry (c color : Nat) : Nat :=
  (c % 256) + (color % 256) * 256

/-- Embeds the static `term_tab_size`, fixed at 8 in term.c. -/
def term_tab_size : Nat := 8

/-- Modelled from the spec: the erase (backspace) control byte
`TERM_ERASE_C` from term_int.h (not under the sources in scope); its
exact value does not affect the properties proved here. -/
def TERM_ERASE_C : Nat := 127

/-- Modelled from the spec: the word-erase control byte `TERM_WERASE_C`
from term_int.h (not under the sources in scope). -/
def TERM_WERASE_C : Nat := 23

/-- Modelled from the spec: the line-kill control byte `TERM_KILL_C`
from term_int.h (not under the sources in scope). -/
def TERM_KILL_C : Nat := 21

structure TermState where
  term_cols : Nat
  term_rows : Nat
  current_row : Nat
  current_col : Nat
  term_col_offset : Nat
  scroll : Nat
  max_scroll : Nat
  total_buffer_rows : Nat
  extra_buffer_rows : Nat
  buffer : Nat → Nat
  term_tabs : Option (Nat → Bool)
  vi_has_scroll_one_line_up : Bool

/-- Embeds `buffer_set_entry`. -/
def buffer_set_entry (st : TermState) (row col e : Nat) : TermState :=
  { st with buffer := (Function.update st.buffer
      ((row + st.scroll) % st.total_buffer_rows * st.term_cols + col) e) }

/-- Embeds `buffer_get_entry`. -/
def buffer_get_entry (st : TermState) (row col : Nat) : Nat :=
  st.buffer ((row + st.scroll) % st.total_buffer_rows * st.term_cols + col)

/-- Embeds `ts_is_at_bottom`. -/
def ts_is_at_bottom (st : TermState) : Bool :=
  st.scroll == st.max_scroll

/-- Embeds `ts_set_scroll`: clamps the requested offset into
`[max_scroll - extra_buffer_rows, max_scroll]` (lower bound floored at
0) and redraws only when the offset changed (the redraw itself only
touches the backend). -/
def ts_set_scroll (st : TermState) (requested_scroll : Nat) : TermState :=
  let min_scroll : Nat :=
    if st.max_scroll > st.extra_buffer_rows
    then st.max_scroll - st.extra_buffer_rows
    else 0
  let rs := min (max requested_scroll min_scroll) st.max_scroll
  if rs == st.scroll then st else { st with scroll := rs }

/-- Embeds `ts_scroll_up`: `lines > scroll` would underflow the `u32`
subtraction, so the source floors the request at 0 first. -/
def ts_scroll_up (st : TermState) (lines : Nat) : TermState :=
  if lines > st.scroll then ts_set_scroll st 0
  else ts_set_scroll st (st.scroll - lines)

/-- Embeds `ts_scroll_down`; the `u32` addition `scroll + lines` wraps. -/
def ts_scroll_down (st : TermState) (lines : Nat) : TermState :=
  ts_set_scroll st ((st.scroll + lines) % pow2_32)

/-- Embeds `ts_scroll_to_bottom`. -/
def ts_scroll_to_bottom (st : TermState) : TermState :=
  if st.scroll != st.max_scroll then ts_set_scroll st st.max_scroll else st

/-- Embeds `ts_buf_clear_row`: `memset16` of the physical scrollback row
with blank entries. -/
def ts_buf_clear_row (st : TermState) (row : Nat) (color : Nat) : TermState :=
  let base := (row + st.scroll) % st.total_buffer_rows * st.term_cols
  { st with buffer := fun i =>
      if base ≤ i ∧ i < base + st.term_cols then make_vgaentry 32 color
      else st.buffer i }

/-- Embeds `ts_clear_row` (the `vi->clear_row` call is backend-only). -/
def ts_clear_row (st : TermState) (row : Nat) (color : Nat) : TermState :=
  ts_buf_clear_row st row color

/-- Embeds `term_internal_incr_row`: below the last row the cursor just
moves down; on the last row a scrollback line is produced — `max_scroll`
is bumped and either the backend scrolls (then `scroll` is bumped in
lock-step) or the view is re-clamped to the new bottom — and the fresh
last row is cleared. -/
def term_internal_incr_row (st : TermState) (color : Nat) : TermState :=
  let st := { st with term_col_offset := 0 }
  if st.current_row < st.term_rows - 1 then
    { st with current_row := st.current_row + 1 }
  else
    let st := { st with max_scroll := (st.max_scroll + 1) % pow2_32 }
    let st :=
      if st.vi_has_scroll_one_line_up then
        { st with scroll := (st.scroll + 1) % pow2_32 }
      else ts_set_scroll st st.max_scroll
    ts_clear_row st (st.term_rows - 1) color

/-- Embeds `term_internal_write_printable_char`: store the entry in the
scrollback buffer (and backend) and advance the column.  The `u16`
increment cannot wrap: the caller keeps `current_col < term_cols`. -/
def term_internal_write_printable_char (st : TermState) (c color : Nat) :
    TermState :=
  let entry := make_vgaentry c color
  let st := buffer_set_entry st st.current_row st.current_col entry
  { st with current_col := st.current_col + 1 }

/-- Embeds `round_up_at`; written with division, which coincides with
the source's power-of-two bitmask form for the unit 8 used here. -/
def round_up_at (n unit : Nat) : Nat :=
  (n + unit - 1) / unit * unit

/-- Embeds `term_internal_write_tab`: without a tab bitmap a tab prints
one space unless the cursor is on the last column; with a bitmap the
next stop is `round_up_at(col+1, 8)` clamped to `term_cols - 2`, that
cell is marked tab-owned, and the cursor jumps one past it.  The
`(u32)term_cols - 2` subtraction matches the source for
`term_cols ≥ 2`, the only case the theorems below use. -/
def term_internal_write_tab (st : TermState) (color : Nat) : TermState :=
  let rem := st.term_cols - st.current_col - 1
  match st.term_tabs with
  | none =>
    if rem ≠ 0 then term_internal_write_printable_char st 32 color else st
  | some tabs =>
    let tab_col :=
      min (round_up_at (st.current_col + 1) term_tab_size) (st.term_cols - 2)
    { st with
        term_tabs := some (Function.update tabs
          (st.current_row * st.term_cols + tab_col) true),
        current_col := tab_col + 1 }

/-- Embeds the `for (int i = term_tab_size - 1; i >= 0; i--)` walk of
`term_internal_write_backspace`: starting just below the cleared tab
cell, step left until the row start, the column offset or a previous tab
stop is hit; the final `i == 0` iteration of the C loop performs no
decrement, so the walk runs `term_tab_size - 1` steps. -/
def term_backspace_collapse (tabs : Nat → Bool) (row cols off : Nat) :
    Nat → Nat → Nat
  | 0, col => col
  | i + 1, col =>
    if col = 0 ∨ col = off then col
    else if tabs (row * cols + col - 1) then col
    else term_backspace_collapse tabs row cols off i (col - 1)

/-- Embeds `term_internal_write_backspace`: a no-op at the row start or
at/inside the column offset; otherwise steps back one cell and either
blanks it, or — if that cell is tab-owned — clears the tab mark and
collapses across the cells the tab skipped. -/
def term_internal_write_backspace (st : TermState) (color : Nat) :
    TermState :=
  if st.current_col = 0 ∨ st.current_col ≤ st.term_col_offset then st
  else
    let space_entry := make_vgaentry 32 color
    let col := st.current_col - 1
    let st := { st with current_col := col }
    match st.term_tabs with
    | none =>
      buffer_set_entry st st.current_row col space_entry
    | some tabs =>
      if tabs (st.current_row * st.term_cols + col) = false then
        buffer_set_entry st st.current_row col space_entry
      else
        let tabs' := Function.update tabs
          (st.current_row * st.term_cols + col) false
        let st := { st with term_tabs := some tabs' }
        { st with current_col := (term_backspace_collapse tabs'
            st.current_row st.term_cols st.term_col_offset
            (term_tab_size - 1) st.current_col) }

/-- Embeds `term_internal_write_char2` in console mode (the
`TERM_SERIAL_CONSOLE` branch only writes to the serial port and leaves
this state untouched).  The byte values are `escape`/`bell`/`vertical
tab` (ignored), newline, carriage return, tab, the erase/word-erase/kill
control bytes (the latter two are `TODO` no-ops in the source) and the
printable default with right-edge wrap. -/
def term_internal_write_char2 (st : TermState) (c color : Nat) : TermState :=
  if c = 27 ∨ c = 7 ∨ c = 11 then st
  else if c = 10 then term_internal_incr_row st color
  else if c = 13 then { st with current_col := 0 }
  else if c = 9 then term_internal_write_tab st color
  else if c = TERM_ERASE_C then term_internal_write_backspace st color
  else if c = TERM_WERASE_C then st
  else if c = TERM_KILL_C then st
  else
    let st := term_internal_write_printable_char st c color
    if st.current_col = st.term_cols then
      term_internal_incr_row { st with current_col := 0 } color
    else st

/-- Embeds `term_action_write` with no filter installed (`filter` is
NULL until a console layer registers one): snap the view to the bottom,
then interpret every byte of the span. -/
def term_action_write (st : TermState) (cs : List Nat) (color : Nat) :
    TermState :=
  let st := ts_scroll_to_bottom st
  cs.foldl (fun s c => term_internal_write_char2 s c color) st

/-- Embeds `term_action_scroll_up` (cursor enable/move are backend-only). -/
def term_action_scroll_up (st : TermState) (lines : Nat) : TermState :=
  ts_scroll_up st lines

/-- Embeds `term_action_scroll_down`. -/
def term_action_scroll_down (st : TermState) (lines : Nat) : TermState :=
  ts_scroll_down st lines

/-- Embeds `term_action_set_col_offset`. -/
def term_action_set_col_offset (st : TermState) (off : Nat) : TermState :=
  { st with term_col_offset := off }

/-- Embeds `term_action_move_ch_and_cur`: clamps the requested `int`
coordinates into the grid.  The source computes in `int`, so the model
uses `Int` and converts the (nonnegative) clamped results. -/
def term_action_move_ch_and_cur (st : TermState) (row col : Int) :
    TermState :=
  { st with
      current_row := (min (max row 0) ((st.term_rows : Int) - 1)).toNat,
      current_col := (min (max col 0) ((st.term_cols : Int) - 1)).toNat }

/-- Embeds `term_action_move_ch_and_cur_rel` (the source adds `dx` to
the row and `dy` to the column). -/
def term_action_move_ch_and_cur_rel (st : TermState) (dx dy : Int) :
    TermState :=
  { st with
      current_row :=
        (min (max ((st.current_row : Int) + dx) 0)
          ((st.term_rows : Int) - 1)).toNat,
      current_col :=
        (min (max ((st.current_col : Int) + dy) 0)
          ((st.term_cols : Int) - 1)).toNat }

/-- Embeds `term_action_reset`: home the cursor, zero both scroll
counters, blank every visible row and clear the tab bitmap. -/
def term_action_reset (st : TermState) : TermState :=
  let st := term_action_move_ch_and_cur st 0 0
  let st := { st with scroll := 0, max_scroll := 0 }
  let st := (List.range st.term_rows).foldl
    (fun s i => ts_clear_row s i DEFAULT_COLOR) st
  match st.term_tabs with
  | some _ => { st with term_tabs := some (fun _ => false) }
  | none => st

/-- Embeds `term_action_erase_in_display`; mode 3 saves the cursor,
resets the terminal and restores only the backend cursor position, so on
the modelled state it coincides with reset; malformed modes are
ignored. -/
def term_action_erase_in_display (st : TermState) (mode : Int) : TermState :=
  let entry := make_vgaentry 32 DEFAULT_COLOR
  if mode = 0 then
    let st1 := (List.range (st.term_cols - st.current_col)).foldl
      (fun s k => buffer_set_entry s st.current_row (st.current_col + k) entry)
      st
    (List.range (st.term_rows - (st.current_row + 1))).foldl
      (fun s k => ts_clear_row s (st.current_row + 1 + k) DEFAULT_COLOR) st1
  else if mode = 1 then
    let st1 := (List.range st.current_row).foldl
      (fun s i => ts_clear_row s i DEFAULT_COLOR) st
    (List.range st.current_col).foldl
      (fun s col => buffer_set_entry s st.current_row col entry) st1
  else if mode = 2 then
    (List.range st.term_rows).foldl
      (fun s i => ts_clear_row s i DEFAULT_COLOR) st
  else if mode = 3 then
    term_action_reset st
  else st

/-- Embeds `term_action_erase_in_line`; malformed modes are ignored. -/
def term_action_erase_in_line (st : TermState) (mode : Int) : TermState :=
  let entry := make_vgaentry 32 DEFAULT_COLOR
  if mode = 0 then
    (List.range (st.term_cols - st.current_col)).foldl
      (fun s k => buffer_set_entry s st.current_row (st.current_col + k) entry)
      st
  else if mode = 1 then
    (List.range st.current_col).foldl
      (fun s col => buffer_set_entry s st.current_row col entry) st
  else if mode = 2 then
    ts_clear_row st st.current_row DEFAULT_COLOR
  else st

/-- Embeds the row-block `memcpy` of the non-buffered scrolls: copies
the `term_cols` entries of physical row `src` over physical row `dst`. -/
def buffer_copy_row (st : TermState) (dst src : Nat) : TermState :=
  { st with buffer := fun i =>
      if dst * st.term_cols ≤ i ∧ i < dst * st.term_cols + st.term_cols then
        st.buffer (src * st.term_cols + (i - dst * st.term_cols))
      else st.buffer i }

/-- Embeds `term_action_non_buf_scroll_up`: shift the visible rows up by
`n` (clamped to `term_rows`) inside the scrollback without touching
`scroll`/`max_scroll`, then blank the last `n` rows. -/
def term_action_non_buf_scroll_up (st : TermState) (n0 : Nat) : TermState :=
  let n := min n0 st.term_rows
  let st1 := (List.range (st.term_rows - n)).foldl
    (fun s row => buffer_copy_row s
      ((st.scroll + row) % st.total_buffer_rows)
      ((st.scroll + row + n) % st.total_buffer_rows)) st
  (List.range n).foldl
    (fun s k => ts_buf_clear_row s (st.term_rows - n + k) DEFAULT_COLOR) st1

/-- Embeds `term_action_non_buf_scroll_down`: the mirror shift, walking
the rows bottom-up, then blanking the first `n` rows. -/
def term_action_non_buf_scroll_down (st : TermState) (n0 : Nat) : TermState :=
  let n := min n0 st.term_rows
  let st1 := ((List.range (st.term_rows - n)).reverse).foldl
    (fun s row => buffer_copy_row s
      ((st.scroll + row + n) % st.total_buffer_rows)
      ((st.scroll + row) % st.total_buffer_rows)) st
  (List.range n).foldl
    (fun s k => ts_buf_clear_row s k DEFAULT_COLOR) st1

/-- The dispatched terminal actions that touch the modelled state
(`term_action_pause_video_output` / `..._restart_...` only swap the
video-backend pointer). -/
inductive TermOp where
  | write (cs : List Nat) (color : Nat)
  | scroll_up (lines : Nat)
  | scroll_down (lines : Nat)
  | set_col_offset (off : Nat)
  | move_ch_and_cur (row col : Int)
  | move_ch_and_cur_rel (dx dy : Int)
  | reset
  | erase_in_display (mode : Int)
  | erase_in_line (mode : Int)
  | non_buf_scroll_up (n : Nat)
  | non_buf_scroll_down (n : Nat)

/-- Dispatch of one queued action to its handler, as in
`term_execute_action`'s table. -/
def term_apply_op (st : TermState) : TermOp → TermState
  | .write cs color => term_action_write st cs color
  | .scroll_up lines => term_action_scroll_up st lines
  | .scroll_down lines => term_action_scroll_down st lines
  | .set_col_offset off => term_action_set_col_offset st off
  | .move_ch_and_cur row col => term_action_move_ch_and_cur st row col
  | .move_ch_and_cur_rel dx dy => term_action_move_ch_and_cur_rel st dx dy
  | .reset => term_action_reset st
  | .erase_in_display mode => term_action_erase_in_display st mode
  | .erase_in_line mode => term_action_erase_in_line st mode
  | .non_buf_scroll_up n => term_action_non_buf_scroll_up st n
  | .non_buf_scroll_down n => term_action_non_buf_scroll_down st n

/-- Reads the tab bitmap, false when the bitmap was not allocated. -/
def term_get_tab (st : TermState) (idx : Nat) : Bool :=
  match st.term_tabs with
  | some tabs => tabs idx
  | none => false

/-- An 80×25 terminal as initialized by `init_term` with the full
scrollback allocated (`extra_buffer_rows = 9 * term_rows`), tab bitmap
enabled and cursor at the origin. -/
def termStateC3 : TermState :=
  { term_cols := 80, term_rows := 25, current_row := 0, current_col := 0,
    term_col_offset := 0, scroll := 0, max_scroll := 0,
    total_buffer_rows := 250, extra_buffer_rows := 225,
    buffer := fun _ => 0, term_tabs := some (fun _ => false),
    vi_has_scroll_one_line_up := true }

/-- C3 counterexample: writing `"a\t"` from column 0 with tab size 8
leaves the cursor at column 9 — one past the recorded stop at column 8 —
so the following `b` lands at column 9, not 8: the code sets
`current_col = tab_col + 1` after marking `tab_col`. -/
theorem term_write_tab_lands_past_stop :
    (term_action_write termStateC3 [97, 9] 7).current_col = 9 ∧
    buffer_get_entry (term_action_write termStateC3 [97, 9, 98] 7) 0 9 =
      make_vgaentry 98 7 ∧
    ¬ ((term_action_write termStateC3 [97, 9] 7).current_col = 8 ∧
       buffer_get_entry (term_action_write termStateC3 [97, 9, 98] 7) 0 8 =
         make_vgaentry 98 7) := by
  refine ⟨by decide, by decide, ?_⟩
  intro h
  exact absurd h.1 (by decide)

/-- C3 (amended): with tab size 8 and tab stops enabled, writing
`"a\tb"` from column 0 records the tab stop at column 8 (the only marked
cell of the bitmap) and moves the cursor one past it, to column 9; `b`
is therefore placed at column 9 and the cursor ends at column 10; the
cells the tab skipped keep their previous contents. -/
theorem term_write_tab_amended :
    (term_action_write termStateC3 [97, 9] 7).current_col = 9 ∧
    (term_action_write termStateC3 [97, 9, 98] 7).current_col = 10 ∧
    buffer_get_entry (term_action_write termStateC3 [97, 9, 98] 7) 0 0 =
      make_vgaentry 97 7 ∧
    buffer_get_entry (term_action_write termStateC3 [97, 9, 98] 7) 0 9 =
      make_vgaentry 98 7 ∧
    term_get_tab (term_action_write termStateC3 [97, 9, 98] 7) 8 = true ∧
    (∀ k, k < 160 → k ≠ 8 →
      term_get_tab (term_action_write termStateC3 [97, 9, 98] 7) k = false) ∧
    (∀ k, 1 ≤ k → k ≤ 8 →
      buffer_get_entry (term_action_write termStateC3 [97, 9, 98] 7) 0 k =
        termStateC3.buffer k) := by
  refine ⟨by decide, by decide, by decide, by decide, by decide, ?_, ?_⟩
  · decide
  · decide

/-! ### Scroll window invariant (claim about `ts_set_scroll` and
`term_internal_incr_row`) -/

/-- The documented invariant of the scrollback window:
`0 ≤ scroll ≤ max_scroll` and `max_scroll - scroll ≤ extra_buffer_rows`
(the lower bound `0 ≤ scroll` is inherent to `Nat`). -/
def scroll_invariant (st : TermState) : Prop :=
  st.scroll ≤ st.max_scroll ∧
  st.max_scroll - st.scroll ≤ st.extra_buffer_rows

theorem ts_set_scroll_eq (st : TermState) (r : Nat) :
    ts_set_scroll st r =
      { st with scroll := (min (max r
          (st.max_scroll - st.extra_buffer_rows)) st.max_scroll) } := by
  unfold ts_set_scroll
  dsimp only
  have hmin : (if st.max_scroll > st.extra_buffer_rows
      then st.max_scroll - st.extra_buffer_rows else 0) =
      st.max_scroll - st.extra_buffer_rows := by
    split <;> omega
  rw [hmin]
  split
  · next h =>
    rw [eq_of_beq h]
  · rfl

@[simp] theorem buffer_set_entry_term_cols (st : TermState) (row col e : Nat) :
    (buffer_set_entry st row col e).term_cols = st.term_cols := rfl

@[simp] theorem buffer_set_entry_term_rows (st : TermState) (row col e : Nat) :
    (buffer_set_entry st row col e).term_rows = st.term_rows := rfl

@[simp] theorem buffer_set_entry_current_row (st : TermState) (row col e : Nat) :
    (buffer_set_entry st row col e).current_row = st.current_row := rfl

@[simp] theorem buffer_set_entry_current_col (st : TermState) (row col e : Nat) :
    (buffer_set_entry st row col e).current_col = st.current_col := rfl

@[simp] theorem buffer_set_entry_scroll (st : TermState) (row col e : Nat) :
    (buffer_set_entry st row col e).scroll = st.scroll := rfl

@[simp] theorem buffer_set_entry_max_scroll (st : TermState) (row col e : Nat) :
    (buffer_set_entry st row col e).max_scroll = st.max_scroll := rfl

@[simp] theorem buffer_set_entry_extra (st : TermState) (row col e : Nat) :
    (buffer_set_entry st row col e).extra_buffer_rows =
      st.extra_buffer_rows := rfl

@[simp] theorem buffer_set_entry_tabs (st : TermState) (row col e : Nat) :
    (buffer_set_entry st row col e).term_tabs = st.term_tabs := rfl

@[simp] theorem ts_buf_clear_row_term_cols (st : TermState) (row c : Nat) :
    (ts_buf_clear_row st row c).term_cols = st.term_cols := rfl

@[simp] theorem ts_buf_clear_row_term_rows (st : TermState) (row c : Nat) :
    (ts_buf_clear_row st row c).term_rows = st.term_rows := rfl

@[simp] theorem ts_buf_clear_row_current_row (st : TermState) (row c : Nat) :
    (ts_buf_clear_row st row c).current_row = st.current_row := rfl

@[simp] theorem ts_buf_clear_row_current_col (st : TermState) (row c : Nat) :
    (ts_buf_clear_row st row c).current_col = st.current_col := rfl

@[simp] theorem ts_buf_clear_row_scroll (st : TermState) (row c : Nat) :
    (ts_buf_clear_row st row c).scroll = st.scroll := rfl

@[simp] theorem ts_buf_clear_row_max_scroll (st : TermState) (row c : Nat) :
    (ts_buf_clear_row st row c).max_scroll = st.max_scroll := rfl

@[simp] theorem ts_buf_clear_row_extra (st : TermState) (row c : Nat) :
    (ts_buf_clear_row st row c).extra_buffer_rows = st.extra_buffer_rows := rfl

@[simp] theorem ts_buf_clear_row_tabs (st : TermState) (row c : Nat) :
    (ts_buf_clear_row st row c).term_tabs = st.term_tabs := rfl

@[simp] theorem ts_clear_row_eq (st : TermState) (row c : Nat) :
    ts_clear_row st row c = ts_buf_clear_row st row c := rfl

@[simp] theorem buffer_copy_row_term_cols (st : TermState) (d src : Nat) :
    (buffer_copy_row st d src).term_cols = st.term_cols := rfl

@[simp] theorem buffer_copy_row_term_rows (st : TermState) (d src : Nat) :
    (buffer_copy_row st d src).term_rows = st.term_rows := rfl

@[simp] theorem buffer_copy_row_current_row (st : TermState) (d src : Nat) :
    (buffer_copy_row st d src).current_row = st.current_row := rfl

@[simp] theorem buffer_copy_row_current_col (st : TermState) (d src : Nat) :
    (buffer_copy_row st d src).current_col = st.current_col := rfl

@[simp] theorem buffer_copy_row_scroll (st : TermState) (d src : Nat) :
    (buffer_copy_row st d src).scroll = st.scroll := rfl

@[simp] theorem buffer_copy_row_max_scroll (st : TermState) (d src : Nat) :
    (buffer_copy_row st d src).max_scroll = st.max_scroll := rfl

@[simp] theorem buffer_copy_row_extra (st : TermState) (d src : Nat) :
    (buffer_copy_row st d src).extra_buffer_rows = st.extra_buffer_rows := rfl

@[simp] theorem write_printable_term_cols (st : TermState) (c color : Nat) :
    (term_internal_write_printable_char st c color).term_cols =
      st.term_cols := rfl

@[simp] theorem write_printable_term_rows (st : TermState) (c color : Nat) :
    (term_internal_write_printable_char st c color).term_rows =
      st.term_rows := rfl

@[simp] theorem write_printable_current_row (st : TermState) (c color : Nat) :
    (term_internal_write_printable_char st c color).current_row =
      st.current_row := rfl

@[simp] theorem write_printable_current_col (st : TermState) (c color : Nat) :
    (term_internal_write_printable_char st c color).current_col =
      st.current_col + 1 := rfl

@[simp] theorem write_printable_scroll (st : TermState) (c color : Nat) :
    (term_internal_write_printable_char st c color).scroll = st.scroll := rfl

@[simp] theorem write_printable_max_scroll (st : TermState) (c color : Nat) :
    (term_internal_write_printable_char st c color).max_scroll =
      st.max_scroll := rfl

@[simp] theorem write_printable_extra (st : TermState) (c color : Nat) :
    (term_internal_write_printable_char st c color).extra_buffer_rows =
      st.extra_buffer_rows := rfl

@[simp] theorem write_printable_tabs (st : TermState) (c color : Nat) :
    (term_internal_write_printable_char st c color).term_tabs =
      st.term_tabs := rfl

@[simp] theorem ts_set_scroll_term_cols (st : TermState) (r : Nat) :
    (ts_set_scroll st r).term_cols = st.term_cols := by
  rw [ts_set_scroll_eq]

@[simp] theorem ts_set_scroll_term_rows (st : TermState) (r : Nat) :
    (ts_set_scroll st r).term_rows = st.term_rows := by
  rw [ts_set_scroll_eq]

@[simp] theorem ts_set_scroll_current_row (st : TermState) (r : Nat) :
    (ts_set_scroll st r).current_row = st.current_row := by
  rw [ts_set_scroll_eq]

@[simp] theorem ts_set_scroll_current_col (st : TermState) (r : Nat) :
    (ts_set_scroll st r).current_col = st.current_col := by
  rw [ts_set_scroll_eq]

@[simp] theorem ts_set_scroll_max_scroll (st : TermState) (r : Nat) :
    (ts_set_scroll st r).max_scroll = st.max_scroll := by
  rw [ts_set_scroll_eq]

@[simp] theorem ts_set_scroll_extra (st : TermState) (r : Nat) :
    (ts_set_scroll st r).extra_buffer_rows = st.extra_buffer_rows := by
  rw [ts_set_scroll_eq]

@[simp] theorem ts_set_scroll_tabs (st : TermState) (r : Nat) :
    (ts_set_scroll st r).term_tabs = st.term_tabs := by
  rw [ts_set_scroll_eq]

theorem ts_set_scroll_scroll (st : TermState) (r : Nat) :
    (ts_set_scroll st r).scroll =
      min (max r (st.max_scroll - st.extra_buffer_rows)) st.max_scroll := by
  rw [ts_set_scroll_eq]

theorem ts_set_scroll_invariant (st : TermState) (r : Nat) :
    scroll_invariant (ts_set_scroll st r) := by
  unfold scroll_invariant
  rw [ts_set_scroll_scroll, ts_set_scroll_max_scroll, ts_set_scroll_extra]
  omega

theorem frame_scroll_invariant (s' s : TermState)
    (h1 : s'.scroll = s.scroll) (h2 : s'.max_scroll = s.max_scroll)
    (h3 : s'.extra_buffer_rows = s.extra_buffer_rows)
    (h : scroll_invariant s) : scroll_invariant s' := by
  unfold scroll_invariant at h ⊢
  rw [h1, h2, h3]
  exact h

theorem foldl_preserve {β : Type} (P : TermState → Prop)
    (f : TermState → β → TermState) (hf : ∀ s b, P s → P (f s b)) :
    ∀ (l : List β) (s : TermState), P s → P (l.foldl f s) := by
  intro l
  induction l with
  | nil => intro s hs; exact hs
  | cons b l ih => intro s hs; exact ih _ (hf s b hs)

/-- During a `term_action_write` the view is pinned to the bottom of the
scrollback: `scroll = max_scroll`. -/
def at_bottom (st : TermState) : Prop :=
  st.scroll = st.max_scroll

theorem ts_scroll_to_bottom_at_bottom (st : TermState) :
    at_bottom (ts_scroll_to_bottom st) := by
  unfold ts_scroll_to_bottom at_bottom
  split
  · rw [ts_set_scroll_scroll, ts_set_scroll_max_scroll]
    omega
  · next h =>
    simpa using h

theorem term_internal_incr_row_at_bottom (st : TermState) (color : Nat)
    (h : at_bottom st) : at_bottom (term_internal_incr_row st color) := by
  unfold at_bottom at h
  unfold at_bottom term_internal_incr_row
  dsimp only
  split
  · exact h
  · split
    · simp only [ts_clear_row_eq, ts_buf_clear_row_scroll,
        ts_buf_clear_row_max_scroll]
      rw [h]
    · simp only [ts_clear_row_eq, ts_buf_clear_row_scroll,
        ts_buf_clear_row_max_scroll, ts_set_scroll_scroll,
        ts_set_scroll_max_scroll]
      omega

theorem term_internal_write_tab_frame (st : TermState) (color : Nat) :
    (term_internal_write_tab st color).scroll = st.scroll ∧
    (term_internal_write_tab st color).max_scroll = st.max_scroll := by
  unfold term_internal_write_tab
  dsimp only
  split
  · split
    · exact ⟨rfl, rfl⟩
    · exact ⟨rfl, rfl⟩
  · exact ⟨rfl, rfl⟩

theorem term_internal_write_backspace_frame (st : TermState) (color : Nat) :
    (term_internal_write_backspace st color).scroll = st.scroll ∧
    (term_internal_write_backspace st color).max_scroll = st.max_scroll := by
  unfold term_internal_write_backspace
  dsimp only
  split
  · exact ⟨rfl, rfl⟩
  · split
    · exact ⟨rfl, rfl⟩
    · split
      · exact ⟨rfl, rfl⟩
      · exact ⟨rfl, rfl⟩

theorem term_internal_write_char2_at_bottom (st : TermState) (c color : Nat)
    (h : at_bottom st) : at_bottom (term_internal_write_char2 st c color) := by
  unfold term_internal_write_char2
  dsimp only
  split
  · exact h
  · split
    · exact term_internal_incr_row_at_bottom st color h
    · split
      · exact h
      · split
        · unfold at_bottom at h ⊢
          rw [(term_internal_write_tab_frame st color).1,
            (term_internal_write_tab_frame st color).2]
          exact h
        · split
          · unfold at_bottom at h ⊢
            rw [(term_internal_write_backspace_frame st color).1,
              (term_internal_write_backspace_frame st color).2]
            exact h
          · split
            · exact h
            · split
              · exact h
              · split
                · refine term_internal_incr_row_at_bottom _ color ?_
                  unfold at_bottom
                  simp only [write_printable_scroll, write_printable_max_scroll]
                  exact h
                · unfold at_bottom
                  simp only [write_printable_scroll, write_printable_max_scroll]
                  exact h

theorem term_action_write_at_bottom (st : TermState) (cs : List Nat)
    (color : Nat) : at_bottom (term_action_write st cs color) := by
  unfold term_action_write
  dsimp only
  exact foldl_preserve at_bottom _
    (fun s c hs => term_internal_write_char2_at_bottom s c color hs)
    cs _ (ts_scroll_to_bottom_at_bottom st)

theorem at_bottom_invariant {st : TermState} (h : at_bottom st) :
    scroll_invariant st := by
  unfold at_bottom at h
  unfold scroll_invariant
  omega

theorem foldl_scroll_frame {β : Type} (f : TermState → β → TermState)
    (hf : ∀ s b, (f s b).scroll = s.scroll ∧
      (f s b).max_scroll = s.max_scroll ∧
      (f s b).extra_buffer_rows = s.extra_buffer_rows) :
    ∀ (l : List β) (s : TermState),
      (l.foldl f s).scroll = s.scroll ∧
      (l.foldl f s).max_scroll = s.max_scroll ∧
      (l.foldl f s).extra_buffer_rows = s.extra_buffer_rows := by
  intro l
  induction l with
  | nil => intro s; exact ⟨rfl, rfl, rfl⟩
  | cons b l ih =>
    intro s
    refine ⟨?_, ?_, ?_⟩
    · rw [List.foldl_cons, (ih (f s b)).1, (hf s b).1]
    · rw [List.foldl_cons, (ih (f s b)).2.1, (hf s b).2.1]
    · rw [List.foldl_cons, (ih (f s b)).2.2, (hf s b).2.2]

theorem term_action_reset_invariant (st : TermState) :
    scroll_invariant (term_action_reset st) := by
  unfold term_action_reset
  dsimp only
  split
  · unfold scroll_invariant
    dsimp only
    refine foldl_preserve scroll_invariant _ ?_ _ _ ?_
    · intro s b hs
      exact hs
    · exact ⟨Nat.le_refl 0, Nat.zero_le _⟩
  · refine foldl_preserve scroll_invariant _ ?_ _ _ ?_
    · intro s b hs
      exact hs
    · exact ⟨Nat.le_refl 0, Nat.zero_le _⟩

theorem term_action_erase_in_display_invariant (st : TermState) (mode : Int)
    (h : scroll_invariant st) :
    scroll_invariant (term_action_erase_in_display st mode) := by
  unfold term_action_erase_in_display
  dsimp only
  split
  · refine foldl_preserve scroll_invariant _ ?_ _ _
      (foldl_preserve scroll_invariant _ (fun s b hs => ?_) _ _ h)
    · intro s b hs
      exact hs
    · exact hs
  · split
    · refine foldl_preserve scroll_invariant _ ?_ _ _
        (foldl_preserve scroll_invariant _ (fun s b hs => ?_) _ _ h)
      · intro s b hs
        exact hs
      · exact hs
    · split
      · refine foldl_preserve scroll_invariant _ ?_ _ _ h
        intro s b hs
        exact hs
      · split
        · exact term_action_reset_invariant st
        · exact h

theorem term_action_erase_in_line_invariant (st : TermState) (mode : Int)
    (h : scroll_invariant st) :
    scroll_invariant (term_action_erase_in_line st mode) := by
  unfold term_action_erase_in_line
  dsimp only
  split
  · refine foldl_preserve scroll_invariant _ ?_ _ _ h
    intro s b hs
    exact hs
  · split
    · refine foldl_preserve scroll_invariant _ ?_ _ _ h
      intro s b hs
      exact hs
    · split
      · exact frame_scroll_invariant _ _ rfl rfl rfl h
      · exact h

theorem term_action_non_buf_scroll_up_invariant (st : TermState) (n : Nat)
    (h : scroll_invariant st) :
    scroll_invariant (term_action_non_buf_scroll_up st n) := by
  unfold term_action_non_buf_scroll_up
  dsimp only
  refine foldl_preserve scroll_invariant _ ?_ _ _
    (foldl_preserve scroll_invariant _ (fun s b hs => ?_) _ _ h)
  · intro s b hs
    exact hs
  · exact hs

theorem term_action_non_buf_scroll_down_invariant (st : TermState) (n : Nat)
    (h : scroll_invariant st) :
    scroll_invariant (term_action_non_buf_scroll_down st n) := by
  unfold term_action_non_buf_scroll_down
  dsimp only
  refine foldl_preserve scroll_invariant _ ?_ _ _
    (foldl_preserve scroll_invariant _ (fun s b hs => ?_) _ _ h)
  · intro s b hs
    exact hs
  · exact hs

/-- C8: every dispatched terminal action preserves the scrollback-window
invariant `scroll ≤ max_scroll ∧ max_scroll - scroll ≤
extra_buffer_rows`, and `ts_set_scroll` clamps any requested offset —
arbitrarily large or small — into
`[max_scroll - extra_buffer_rows, max_scroll]` (the lower end floored at
zero by the `Nat` subtraction) while leaving `max_scroll` untouched. -/
theorem term_scroll_invariant_preserved (st : TermState) (op : TermOp)
    (hinv : scroll_invariant st) :
    scroll_invariant (term_apply_op st op) ∧
    (∀ r : Nat,
      st.max_scroll - st.extra_buffer_rows ≤ (ts_set_scroll st r).scroll ∧
      (ts_set_scroll st r).scroll ≤ st.max_scroll ∧
      (ts_set_scroll st r).max_scroll = st.max_scroll) := by
  constructor
  · cases op with
    | write cs color =>
      exact at_bottom_invariant (term_action_write_at_bottom st cs color)
    | scroll_up lines =>
      show scroll_invariant (term_action_scroll_up st lines)
      unfold term_action_scroll_up ts_scroll_up
      split
      · exact ts_set_scroll_invariant st 0
      · exact ts_set_scroll_invariant st _
    | scroll_down lines =>
      exact ts_set_scroll_invariant st _
    | set_col_offset off => exact frame_scroll_invariant _ _ rfl rfl rfl hinv
    | move_ch_and_cur row col =>
      exact frame_scroll_invariant _ _ rfl rfl rfl hinv
    | move_ch_and_cur_rel dx dy =>
      exact frame_scroll_invariant _ _ rfl rfl rfl hinv
    | reset => exact term_action_reset_invariant st
    | erase_in_display mode =>
      exact term_action_erase_in_display_invariant st mode hinv
    | erase_in_line mode =>
      exact term_action_erase_in_line_invariant st mode hinv
    | non_buf_scroll_up n =>
      exact term_action_non_buf_scroll_up_invariant st n hinv
    | non_buf_scroll_down n =>
      exact term_action_non_buf_scroll_down_invariant st n hinv
  · intro r
    rw [ts_set_scroll_scroll, ts_set_scroll_max_scroll]
    omega

/-- Closed witness for `term_scroll_invariant_preserved`: a scroll-up
request far beyond the retained history is clamped to the oldest
retained line. -/
theorem term_scroll_invariant_preserved_witness :
    scroll_invariant (term_apply_op
      { termStateC3 with scroll := 300, max_scroll := 300 }
      (.scroll_up 1000000)) ∧
    (∀ r : Nat,
      (300 : Nat) - 225 ≤
        (ts_set_scroll { termStateC3 with scroll := 300, max_scroll := 300 }
          r).scroll ∧
      (ts_set_scroll { termStateC3 with scroll := 300, max_scroll := 300 }
          r).scroll ≤ 300 ∧
      (ts_set_scroll { termStateC3 with scroll := 300, max_scroll := 300 }
          r).max_scroll = 300) :=
  term_scroll_invariant_preserved
    { termStateC3 with scroll := 300, max_scroll := 300 }
    (.scroll_up 1000000) (by constructor <;> decide)

/-! ### Cursor-in-grid invariant -/

/-- The cursor invariant of a terminal whose grid is `R × C`
(`R = term_rows`, `C = term_cols`): the dimensions are untouched and the
cursor stays strictly inside the grid. -/
def grid_ok (R C : Nat) (st : TermState) : Prop :=
  st.term_rows = R ∧ st.term_cols = C ∧
  st.current_row < R ∧ st.current_col < C

theorem ts_set_scroll_grid (R C : Nat) (st : TermState) (r : Nat)
    (h : grid_ok R C st) : grid_ok R C (ts_set_scroll st r) := by
  unfold grid_ok at h ⊢
  simp only [ts_set_scroll_term_rows, ts_set_scroll_term_cols,
    ts_set_scroll_current_row, ts_set_scroll_current_col]
  exact h

theorem term_internal_incr_row_grid (R C : Nat) (st : TermState)
    (color : Nat) (h : grid_ok R C st) :
    grid_ok R C (term_internal_incr_row st color) := by
  obtain ⟨h1, h2, h3, h4⟩ := h
  unfold term_internal_incr_row
  dsimp only
  split
  · next hlt =>
    refine ⟨h1, h2, ?_, h4⟩
    show st.current_row + 1 < R
    rw [h1] at hlt
    omega
  · split
    · exact ⟨h1, h2, h3, h4⟩
    · refine ⟨?_, ?_, ?_, ?_⟩ <;>
        simp only [ts_clear_row_eq, ts_buf_clear_row_term_rows,
          ts_buf_clear_row_term_cols, ts_buf_clear_row_current_row,
          ts_buf_clear_row_current_col, ts_set_scroll_term_rows,
          ts_set_scroll_term_cols, ts_set_scroll_current_row,
          ts_set_scroll_current_col] <;>
        first
        | exact h1
        | exact h2
        | exact h3
        | exact h4

theorem term_internal_incr_row_current_col (st : TermState) (color : Nat) :
    (term_internal_incr_row st color).current_col = st.current_col := by
  unfold term_internal_incr_row
  dsimp only
  split
  · rfl
  · split
    · rfl
    · simp only [ts_clear_row_eq, ts_buf_clear_row_current_col,
        ts_set_scroll_current_col]

theorem term_internal_write_tab_grid (R C : Nat) (st : TermState)
    (color : Nat) (hC : 2 ≤ C) (h : grid_ok R C st) :
    grid_ok R C (term_internal_write_tab st color) := by
  obtain ⟨h1, h2, h3, h4⟩ := h
  unfold term_internal_write_tab
  dsimp only
  split
  · split
    · next hrem =>
      refine ⟨h1, h2, h3, ?_⟩
      show st.current_col + 1 < C
      rw [h2] at hrem
      omega
    · exact ⟨h1, h2, h3, h4⟩
  · refine ⟨h1, h2, h3, ?_⟩
    show min (round_up_at (st.current_col + 1) term_tab_size)
      (st.term_cols - 2) + 1 < C
    rw [h2]
    omega

theorem term_backspace_collapse_le (tabs : Nat → Bool)
    (row cols off : Nat) :
    ∀ (i col : Nat), term_backspace_collapse tabs row cols off i col ≤ col := by
  intro i
  induction i with
  | zero => intro col; exact Nat.le_refl col
  | succ i ih =>
    intro col
    unfold term_backspace_collapse
    split
    · exact Nat.le_refl col
    · split
      · exact Nat.le_refl col
      · exact Nat.le_trans (ih (col - 1)) (Nat.sub_le col 1)

theorem term_internal_write_backspace_grid (R C : Nat) (st : TermState)
    (color : Nat) (h : grid_ok R C st) :
    grid_ok R C (term_internal_write_backspace st color) := by
  obtain ⟨h1, h2, h3, h4⟩ := h
  unfold term_internal_write_backspace
  dsimp only
  split
  · exact ⟨h1, h2, h3, h4⟩
  · split
    · refine ⟨h1, h2, h3, ?_⟩
      show st.current_col - 1 < C
      omega
    · split
      · refine ⟨h1, h2, h3, ?_⟩
        show st.current_col - 1 < C
        omega
      · next tabs heq _ =>
        refine ⟨h1, h2, h3, ?_⟩
        have hle := term_backspace_collapse_le
          (Function.update tabs
            (st.current_row * st.term_cols + (st.current_col - 1)) false)
          st.current_row st.term_cols st.term_col_offset
          (term_tab_size - 1) (st.current_col - 1)
        show term_backspace_collapse
          (Function.update tabs
            (st.current_row * st.term_cols + (st.current_col - 1)) false)
          st.current_row st.term_cols st.term_col_offset
          (term_tab_size - 1) (st.current_col - 1) < C
        omega

theorem term_internal_write_char2_grid (R C : Nat) (st : TermState)
    (c color : Nat) (hC : 2 ≤ C) (h : grid_ok R C st) :
    grid_ok R C (term_internal_write_char2 st c color) := by
  obtain ⟨h1, h2, h3, h4⟩ := h
  unfold term_internal_write_char2
  dsimp only
  split
  · exact ⟨h1, h2, h3, h4⟩
  · split
    · exact term_internal_incr_row_grid R C st color ⟨h1, h2, h3, h4⟩
    · split
      · refine ⟨h1, h2, h3, ?_⟩
        show (0 : Nat) < C
        omega
      · split
        · exact term_internal_write_tab_grid R C st color hC ⟨h1, h2, h3, h4⟩
        · split
          · exact term_internal_write_backspace_grid R C st color
              ⟨h1, h2, h3, h4⟩
          · split
            · exact ⟨h1, h2, h3, h4⟩
            · split
              · exact ⟨h1, h2, h3, h4⟩
              · split
                · refine term_internal_incr_row_grid R C _ color ?_
                  refine ⟨?_, ?_, ?_, ?_⟩
                  · show (term_internal_write_printable_char st c
                        color).term_rows = R
                    simp only [write_printable_term_rows]
                    exact h1
                  · show (term_internal_write_printable_char st c
                        color).term_cols = C
                    simp only [write_printable_term_cols]
                    exact h2
                  · show (term_internal_write_printable_char st c
                        color).current_row < R
                    simp only [write_printable_current_row]
                    exact h3
                  · show (0 : Nat) < C
                    omega
                · next hnw =>
                  simp only [write_printable_current_col,
                    write_printable_term_cols] at hnw
                  refine ⟨?_, ?_, ?_, ?_⟩
                  · simp only [write_printable_term_rows]
                    exact h1
                  · simp only [write_printable_term_cols]
                    exact h2
                  · simp only [write_printable_current_row]
                    exact h3
                  · show st.current_col + 1 < C
                    rw [h2] at hnw
                    omega

theorem term_action_write_grid (R C : Nat) (st : TermState) (cs : List Nat)
    (color : Nat) (hC : 2 ≤ C) (h : grid_ok R C st) :
    grid_ok R C (term_action_write st cs color) := by
  unfold term_action_write
  dsimp only
  refine foldl_preserve (grid_ok R C) _ ?_ _ _ ?_
  · intro s b hs
    exact term_internal_write_char2_grid R C s b color hC hs
  · unfold ts_scroll_to_bottom
    split
    · exact ts_set_scroll_grid R C st _ h
    · exact h

theorem term_action_move_ch_and_cur_grid (R C : Nat) (st : TermState)
    (row col : Int) (hR : 1 ≤ R) (hC : 2 ≤ C) (h : grid_ok R C st) :
    grid_ok R C (term_action_move_ch_and_cur st row col) := by
  obtain ⟨h1, h2, h3, h4⟩ := h
  refine ⟨h1, h2, ?_, ?_⟩
  · show (min (max row 0) ((st.term_rows : Int) - 1)).toNat < R
    rw [h1]
    omega
  · show (min (max col 0) ((st.term_cols : Int) - 1)).toNat < C
    rw [h2]
    omega

theorem term_action_move_ch_and_cur_rel_grid (R C : Nat) (st : TermState)
    (dx dy : Int) (hR : 1 ≤ R) (hC : 2 ≤ C) (h : grid_ok R C st) :
    grid_ok R C (term_action_move_ch_and_cur_rel st dx dy) := by
  obtain ⟨h1, h2, h3, h4⟩ := h
  refine ⟨h1, h2, ?_, ?_⟩
  · show (min (max ((st.current_row : Int) + dx) 0)
      ((st.term_rows : Int) - 1)).toNat < R
    rw [h1]
    omega
  · show (min (max ((st.current_col : Int) + dy) 0)
      ((st.term_cols : Int) - 1)).toNat < C
    rw [h2]
    omega

theorem term_action_reset_grid (R C : Nat) (st : TermState)
    (hR : 1 ≤ R) (hC : 2 ≤ C) (h : grid_ok R C st) :
    grid_ok R C (term_action_reset st) := by
  have hmove : grid_ok R C (term_action_move_ch_and_cur st 0 0) :=
    term_action_move_ch_and_cur_grid R C st 0 0 hR hC h
  unfold term_action_reset
  dsimp only
  split
  · unfold grid_ok
    dsimp only
    refine foldl_preserve (grid_ok R C) _ ?_ _ _ ?_
    · intro s b hs
      exact hs
    · exact hmove
  · refine foldl_preserve (grid_ok R C) _ ?_ _ _ ?_
    · intro s b hs
      exact hs
    · exact hmove

theorem term_action_erase_in_display_grid (R C : Nat) (st : TermState)
    (mode : Int) (hR : 1 ≤ R) (hC : 2 ≤ C) (h : grid_ok R C st) :
    grid_ok R C (term_action_erase_in_display st mode) := by
  unfold term_action_erase_in_display
  dsimp only
  split
  · refine foldl_preserve (grid_ok R C) _ ?_ _ _
      (foldl_preserve (grid_ok R C) _ (fun s b hs => ?_) _ _ h)
    · intro s b hs
      exact hs
    · exact hs
  · split
    · refine foldl_preserve (grid_ok R C) _ ?_ _ _
        (foldl_preserve (grid_ok R C) _ (fun s b hs => ?_) _ _ h)
      · intro s b hs
        exact hs
      · exact hs
    · split
      · refine foldl_preserve (grid_ok R C) _ ?_ _ _ h
        intro s b hs
        exact hs
      · split
        · exact term_action_reset_grid R C st hR hC h
        · exact h

theorem term_action_erase_in_line_grid (R C : Nat) (st : TermState)
    (mode : Int) (h : grid_ok R C st) :
    grid_ok R C (term_action_erase_in_line st mode) := by
  unfold term_action_erase_in_line
  dsimp only
  split
  · refine foldl_preserve (grid_ok R C) _ ?_ _ _ h
    intro s b hs
    exact hs
  · split
    · refine foldl_preserve (grid_ok R C) _ ?_ _ _ h
      intro s b hs
      exact hs
    · split
      · exact h
      · exact h

theorem term_action_non_buf_scroll_up_grid (R C : Nat) (st : TermState)
    (n : Nat) (h : grid_ok R C st) :
    grid_ok R C (term_action_non_buf_scroll_up st n) := by
  unfold term_action_non_buf_scroll_up
  dsimp only
  refine foldl_preserve (grid_ok R C) _ ?_ _ _
    (foldl_preserve (grid_ok R C) _ (fun s b hs => ?_) _ _ h)
  · intro s b hs
    exact hs
  · exact hs

theorem term_action_non_buf_scroll_down_grid (R C : Nat) (st : TermState)
    (n : Nat) (h : grid_ok R C st) :
    grid_ok R C (term_action_non_buf_scroll_down st n) := by
  unfold term_action_non_buf_scroll_down
  dsimp only
  refine foldl_preserve (grid_ok R C) _ ?_ _ _
    (foldl_preserve (grid_ok R C) _ (fun s b hs => ?_) _ _ h)
  · intro s b hs
    exact hs
  · exact hs

theorem term_apply_op_grid (st : TermState) (op : TermOp)
    (hr : 1 ≤ st.term_rows) (hc : 2 ≤ st.term_cols)
    (hrow : st.current_row < st.term_rows)
    (hcol : st.current_col < st.term_cols) :
    grid_ok st.term_rows st.term_cols (term_apply_op st op) := by
  have h0 : grid_ok st.term_rows st.term_cols st := ⟨rfl, rfl, hrow, hcol⟩
  cases op with
  | write cs color => exact term_action_write_grid _ _ st cs color hc h0
  | scroll_up lines =>
    show grid_ok _ _ (term_action_scroll_up st lines)
    unfold term_action_scroll_up ts_scroll_up
    split
    · exact ts_set_scroll_grid _ _ st 0 h0
    · exact ts_set_scroll_grid _ _ st _ h0
  | scroll_down lines => exact ts_set_scroll_grid _ _ st _ h0
  | set_col_offset off => exact h0
  | move_ch_and_cur row col =>
    exact term_action_move_ch_and_cur_grid _ _ st row col hr hc h0
  | move_ch_and_cur_rel dx dy =>
    exact term_action_move_ch_and_cur_rel_grid _ _ st dx dy hr hc h0
  | reset => exact term_action_reset_grid _ _ st hr hc h0
  | erase_in_display mode =>
    exact term_action_erase_in_display_grid _ _ st mode hr hc h0
  | erase_in_line mode => exact term_action_erase_in_line_grid _ _ st mode h0
  | non_buf_scroll_up n => exact term_action_non_buf_scroll_up_grid _ _ st n h0
  | non_buf_scroll_down n =>
    exact term_action_non_buf_scroll_down_grid _ _ st n h0

/-- C10: every dispatched terminal action keeps the cursor inside the
visible grid (`current_row < term_rows` and `current_col < term_cols`
after the action, the dimensions being untouched); a tab with the bitmap
enabled records its stop at a column at most `term_cols - 2` and leaves
the cursor one past it (hence within the grid); a printable byte written
at the last column wraps the cursor to column 0 (of the next row, via
`term_internal_incr_row`). -/
theorem term_cursor_in_grid (st : TermState) (op : TermOp)
    (hr : 1 ≤ st.term_rows) (hc : 2 ≤ st.term_cols)
    (hrow : st.current_row < st.term_rows)
    (hcol : st.current_col < st.term_cols) :
    ((term_apply_op st op).current_row < (term_apply_op st op).term_rows ∧
     (term_apply_op st op).current_col < (term_apply_op st op).term_cols) ∧
    (∀ tabs color, st.term_tabs = some tabs →
      ∃ tc, tc ≤ st.term_cols - 2 ∧
        (term_internal_write_tab st color).current_col = tc + 1 ∧
        (term_internal_write_tab st color).term_tabs =
          some (Function.update tabs
            (st.current_row * st.term_cols + tc) true)) ∧
    (∀ c color, st.current_col = st.term_cols - 1 →
      c ≠ 27 → c ≠ 7 → c ≠ 11 → c ≠ 10 → c ≠ 13 → c ≠ 9 →
      c ≠ TERM_ERASE_C → c ≠ TERM_WERASE_C → c ≠ TERM_KILL_C →
      (term_internal_write_char2 st c color).current_col = 0) := by
  refine ⟨?_, ?_, ?_⟩
  · have hg := term_apply_op_grid st op hr hc hrow hcol
    rw [hg.1, hg.2.1]
    exact ⟨hg.2.2.1, hg.2.2.2⟩
  · intro tabs color heq
    refine ⟨min (round_up_at (st.current_col + 1) term_tab_size)
      (st.term_cols - 2), Nat.min_le_right _ _, ?_, ?_⟩
    · unfold term_internal_write_tab
      dsimp only
      rw [heq]
    · unfold term_internal_write_tab
      dsimp only
      rw [heq]
  · intro c color hedge hn1 hn2 hn3 hn4 hn5 hn6 hn7 hn8 hn9
    unfold term_internal_write_char2
    rw [if_neg (by simp [hn1, hn2, hn3]), if_neg hn4, if_neg hn5,
      if_neg hn6, if_neg hn7, if_neg hn8, if_neg hn9]
    dsimp only
    rw [if_pos]
    · rw [term_internal_incr_row_current_col]
    · simp only [write_printable_current_col, write_printable_term_cols]
      omega

/-- Closed witness for `term_cursor_in_grid` at the 80×25 terminal,
dispatching a write that exercises a printable byte, a tab and a
wrapping write at the right edge. -/
theorem term_cursor_in_grid_witness :
    ((term_apply_op termStateC3 (.write [97, 9, 98] 7)).current_row <
      (term_apply_op termStateC3 (.write [97, 9, 98] 7)).term_rows ∧
     (term_apply_op termStateC3 (.write [97, 9, 98] 7)).current_col <
      (term_apply_op termStateC3 (.write [97, 9, 98] 7)).term_cols) ∧
    (∀ tabs color, termStateC3.term_tabs = some tabs →
      ∃ tc, tc ≤ termStateC3.term_cols - 2 ∧
        (term_internal_write_tab termStateC3 color).current_col = tc + 1 ∧
        (term_internal_write_tab termStateC3 color).term_tabs =
          some (Function.update tabs
            (termStateC3.current_row * termStateC3.term_cols + tc) true)) ∧
    (∀ c color, termStateC3.current_col = termStateC3.term_cols - 1 →
      c ≠ 27 → c ≠ 7 → c ≠ 11 → c ≠ 10 → c ≠ 13 → c ≠ 9 →
      c ≠ TERM_ERASE_C → c ≠ TERM_WERASE_C → c ≠ TERM_KILL_C →
      (term_internal_write_char2 termStateC3 c color).current_col = 0) :=
  term_cursor_in_grid termStateC3 (.write [97, 9, 98] 7)
    (by decide) (by decide) (by decide) (by decide)

end Tilck
